import Mathlib

/-!
# bedrock_chat: the `/chat` relay handler of `main.go`

A shallow embedding of `main.go` together with the parts of Go's
`encoding/json` and `net/http` that the handler calls.

Texts that Go holds as `[]byte` or `string` are sequences of Unicode scalar
values here (`String` / `List Char`), that is, well-formed UTF-8.  All JSON
structural characters are ASCII, so scanning scalar values agrees with Go's
byte scanner on such input.
-/

namespace BedrockChat

/-! ## JSON values and the scanner of `encoding/json` -/

/-- A JSON value.  A number is kept as its literal text. -/
inductive JValue where
  | null : JValue
  | bool (b : Bool) : JValue
  | num (lit : String) : JValue
  | str (s : String) : JValue
  | arr (elems : List JValue) : JValue
  | obj (members : List (String × JValue)) : JValue

/-- Go scanner `isSpace`: space, tab, carriage return, line feed. -/
def isSpace (c : Char) : Bool :=
  c = ' ' || c = '\t' || c = '\r' || c = '\n'

/-- Drop leading JSON whitespace. -/
def skipSpace : List Char → List Char
  | [] => []
  | c :: cs => if isSpace c then skipSpace cs else c :: cs

/-- Value of one hexadecimal digit, as in Go `getu4`. -/
def hexVal (c : Char) : Option Nat :=
  if '0' ≤ c ∧ c ≤ '9' then some (c.toNat - '0'.toNat)
  else if 'a' ≤ c ∧ c ≤ 'f' then some (c.toNat - 'a'.toNat + 10)
  else if 'A' ≤ c ∧ c ≤ 'F' then some (c.toNat - 'A'.toNat + 10)
  else none

/-- Four hexadecimal digits read as a number below 65536 (Go `getu4` after the `\u`). -/
def hex4 (a b c d : Char) : Option Nat :=
  match hexVal a, hexVal b, hexVal c, hexVal d with
  | some x, some y, some z, some w => some (((x * 16 + y) * 16 + z) * 16 + w)
  | _, _, _, _ => none

/-- Go `utf16.IsSurrogate`. -/
def isSurrogate (r : Nat) : Bool := 0xd800 ≤ r && r < 0xe000

/-- Unicode replacement character U+FFFD. -/
def replacementChar : Char := Char.ofNat 0xfffd

/-- Go `utf16.DecodeRune`: the scalar value of a surrogate pair, or U+FFFD. -/
def decodeSurrogates (r1 r2 : Nat) : Char :=
  if 0xd800 ≤ r1 ∧ r1 < 0xdc00 ∧ 0xdc00 ≤ r2 ∧ r2 < 0xe000 then
    Char.ofNat ((r1 - 0xd800) * 0x400 + (r2 - 0xdc00) + 0x10000)
  else replacementChar

/-- The character a one-letter escape stands for (scanner state `stateInStringEsc`). -/
def unescape (e : Char) : Option Char :=
  if e = '"' then some '"'
  else if e = '\\' then some '\\'
  else if e = '/' then some '/'
  else if e = 'b' then some (Char.ofNat 8)
  else if e = 'f' then some (Char.ofNat 12)
  else if e = 'n' then some '\n'
  else if e = 'r' then some '\r'
  else if e = 't' then some '\t'
  else none

/-- Put a decoded character in front of the rest of a scanned string. -/
def consChar (c : Char) : Option (List Char × List Char) → Option (List Char × List Char)
  | some (s, rest) => some (c :: s, rest)
  | none => none

/-- Go `getu4` applied to the input after a high surrogate escape: the value of
a following `\uXXXX` escape, if there is one. -/
def peekEscape : List Char → Option Nat
  | b :: u :: l1 :: l2 :: l3 :: l4 :: _ =>
    if b = '\\' ∧ u = 'u' then hex4 l1 l2 l3 l4 else none
  | _ => none

/-- Scan a string literal after its opening quote: the decoded contents and the
input after the closing quote.  Follows the scanner states `stateInString*` and
`unquote`: a raw control character or a bad escape is an error, a lone surrogate
escape becomes U+FFFD.  The first argument counts characters still to be passed
over: the six of a low surrogate escape already decoded with its high one. -/
def scanString : Nat → List Char → Option (List Char × List Char)
  | _, [] => none
  | skip + 1, _ :: cs => scanString skip cs
  | 0, c :: cs =>
    if c = '"' then some ([], cs)
    else if c = '\\' then
      match cs with
      | [] => none
      | e :: rest =>
        if e = 'u' then
          match rest with
          | h1 :: h2 :: h3 :: h4 :: rest4 =>
            match hex4 h1 h2 h3 h4 with
            | none => none
            | some rr =>
              if isSurrogate rr then
                match peekEscape rest4 with
                | some rr1 =>
                  if decodeSurrogates rr rr1 = replacementChar then
                    consChar replacementChar (scanString 0 rest4)
                  else consChar (decodeSurrogates rr rr1) (scanString 6 rest4)
                | none => consChar replacementChar (scanString 0 rest4)
              else consChar (Char.ofNat rr) (scanString 0 rest4)
          | _ => none
        else
          match unescape e with
          | some ch => consChar ch (scanString 0 rest)
          | none => none
    else if c.toNat < 0x20 then none
    else consChar c (scanString 0 cs)

/-- Decimal digit test of the scanner. -/
def isDigit (c : Char) : Bool := decide ('0' ≤ c) && decide (c ≤ '9')

/-- The longest run of digits at the front of the input, and what follows it. -/
def spanDigits : List Char → List Char × List Char
  | [] => ([], [])
  | c :: cs => if isDigit c then ((c :: (spanDigits cs).1), (spanDigits cs).2) else ([], c :: cs)

/-- Integer part of a number (scanner states `stateNeg`, `state0`, `state1`):
a single `0`, or a non-zero digit followed by digits. -/
def scanInt : List Char → Option (List Char × List Char)
  | [] => none
  | c :: cs =>
    if c = '0' then some (['0'], cs)
    else if isDigit c then some (c :: (spanDigits cs).1, (spanDigits cs).2)
    else none

/-- Optional fraction (scanner states `stateDot`, `stateDot0`): a dot must be
followed by at least one digit. -/
def scanFrac : List Char → Option (List Char × List Char)
  | [] => some ([], [])
  | c :: cs =>
    if c = '.' then
      if (spanDigits cs).1 = [] then none else some ('.' :: (spanDigits cs).1, (spanDigits cs).2)
    else some ([], c :: cs)

/-- Digits of an exponent (scanner states `stateESign`, `stateE0`): at least one. -/
def scanExpDigits (cs : List Char) : Option (List Char × List Char) :=
  if (spanDigits cs).1 = [] then none else some ((spanDigits cs).1, (spanDigits cs).2)

/-- Optional exponent (scanner state `stateE`): `e` or `E`, an optional sign, digits. -/
def scanExp : List Char → Option (List Char × List Char)
  | [] => some ([], [])
  | c :: cs =>
    if c = 'e' ∨ c = 'E' then
      match cs with
      | [] => none
      | s :: cs1 =>
        if s = '+' ∨ s = '-' then
          match scanExpDigits cs1 with
          | some (d, r) => some (c :: s :: d, r)
          | none => none
        else
          match scanExpDigits (s :: cs1) with
          | some (d, r) => some (c :: d, r)
          | none => none
    else some ([], c :: cs)

/-- Integer part, fraction and exponent of a number, after the optional sign. -/
def scanUnsigned (cs : List Char) : Option (List Char × List Char) :=
  match scanInt cs with
  | none => none
  | some (i, r1) =>
    match scanFrac r1 with
    | none => none
    | some (f, r2) =>
      match scanExp r2 with
      | none => none
      | some (e, r3) => some (i ++ f ++ e, r3)

/-- Scan a number literal: its text and the input after it. -/
def scanNumber : List Char → Option (List Char × List Char)
  | [] => none
  | c :: cs =>
    if c = '-' then
      match scanUnsigned cs with
      | some (n, r) => some ('-' :: n, r)
      | none => none
    else scanUnsigned (c :: cs)

/-- Remove a literal word from the front of the input. -/
def stripWord : List Char → List Char → Option (List Char)
  | [], cs => some cs
  | _ :: _, [] => none
  | w :: ws, c :: cs => if w = c then stripWord ws cs else none

/-- Go scanner `maxNestingDepth`. -/
def maxNestingDepth : Nat := 10000

mutual
/-- Scan one JSON value from the front of the input (leading whitespace allowed):
the value and the input after it.  The first argument bounds the number of
nested calls, the second is the number of arrays and objects already open. -/
def parseValue : Nat → Nat → List Char → Option (JValue × List Char)
  | 0, _, _ => none
  | fuel + 1, depth, cs =>
    match skipSpace cs with
    | [] => none
    | c :: rest =>
      if c = '{' then
        if maxNestingDepth ≤ depth then none
        else
          match skipSpace rest with
          | [] => none
          | c2 :: rest2 =>
            if c2 = '}' then some (JValue.obj [], rest2)
            else
              match parseMembers fuel (depth + 1) (c2 :: rest2) with
              | some (ms, r) => some (JValue.obj ms, r)
              | none => none
      else if c = '[' then
        if maxNestingDepth ≤ depth then none
        else
          match skipSpace rest with
          | [] => none
          | c2 :: rest2 =>
            if c2 = ']' then some (JValue.arr [], rest2)
            else
              match parseElems fuel (depth + 1) (c2 :: rest2) with
              | some (vs, r) => some (JValue.arr vs, r)
              | none => none
      else if c = '"' then
        match scanString 0 rest with
        | some (s, r) => some (JValue.str (String.mk s), r)
        | none => none
      else if c = 't' then
        match stripWord ['r', 'u', 'e'] rest with
        | some r => some (JValue.bool true, r)
        | none => none
      else if c = 'f' then
        match stripWord ['a', 'l', 's', 'e'] rest with
        | some r => some (JValue.bool false, r)
        | none => none
      else if c = 'n' then
        match stripWord ['u', 'l', 'l'] rest with
        | some r => some (JValue.null, r)
        | none => none
      else
        match scanNumber (c :: rest) with
        | some (n, r) => some (JValue.num (String.mk n), r)
        | none => none
/-- Scan the members of an object, from a key up to and including the closing brace. -/
def parseMembers : Nat → Nat → List Char → Option (List (String × JValue) × List Char)
  | 0, _, _ => none
  | fuel + 1, depth, cs =>
    match skipSpace cs with
    | [] => none
    | c :: rest =>
      if c = '"' then
        match scanString 0 rest with
        | none => none
        | some (k, r1) =>
          match skipSpace r1 with
          | [] => none
          | c1 :: r2 =>
            if c1 = ':' then
              match parseValue fuel depth r2 with
              | none => none
              | some (v, r3) =>
                match skipSpace r3 with
                | [] => none
                | c3 :: r4 =>
                  if c3 = ',' then
                    match parseMembers fuel depth r4 with
                    | some (ms, r5) => some ((String.mk k, v) :: ms, r5)
                    | none => none
                  else if c3 = '}' then some ([(String.mk k, v)], r4)
                  else none
            else none
      else none
/-- Scan the elements of an array, from a value up to and including the closing bracket. -/
def parseElems : Nat → Nat → List Char → Option (List JValue × List Char)
  | 0, _, _ => none
  | fuel + 1, depth, cs =>
    match parseValue fuel depth cs with
    | none => none
    | some (v, r1) =>
      match skipSpace r1 with
      | [] => none
      | c :: r2 =>
        if c = ',' then
          match parseElems fuel depth r2 with
          | some (vs, r3) => some (v :: vs, r3)
          | none => none
        else if c = ']' then some ([v], r2)
        else none
end

/-- Fuel that lets `parseValue` read any input of the given length. -/
def fuelFor (cs : List Char) : Nat := 2 * cs.length + 2

/-- What `json.Decoder.Decode` reads: the first JSON value of the body.  Input
after that value is not looked at. -/
def decodeFirst (body : String) : Option JValue :=
  match parseValue (fuelFor body.data) 0 body.data with
  | some (v, _) => some v
  | none => none

/-- What `json.Unmarshal` reads (`checkValid`): the whole text must be one JSON
value with nothing but whitespace around it. -/
def parseDocument (text : String) : Option JValue :=
  match parseValue (fuelFor text.data) 0 text.data with
  | some (v, rest) => if skipSpace rest = [] then some v else none
  | none => none

/-! ## Decoding into the structs of `main.go` -/

/-- A Go slice: `nil` is the zero value, distinct from an empty slice.  A slice
that is not nil has its elements and, past its length, the slots of its backing
array that were written before: `reflect` keeps their contents when a slice is
cut or grown, and slots never written are zero. -/
inductive Slice (α : Type) where
  | nil : Slice α
  | mk (elems : List α) (spare : List α) : Slice α

/-- The elements of a slice, none for the nil slice. -/
def Slice.toList {α : Type} : Slice α → List α
  | Slice.nil => []
  | Slice.mk xs _ => xs

/-- The written slots of the backing array of a slice: its elements, then the
slots past its length. -/
def Slice.backing {α : Type} : Slice α → List α
  | Slice.nil => []
  | Slice.mk xs spare => xs ++ spare

/-- Go `len`. -/
def Slice.len {α : Type} (s : Slice α) : Nat := s.toList.length

/-- Folding of one character of a key as `encoding/json` compares object keys
with field names (`foldName`): ASCII letters go to upper case, and the two
non-ASCII characters whose simple case folding reaches an ASCII letter, the long
s U+017F and the Kelvin sign U+212A, go to that letter.  No other character
folds to an ASCII letter. -/
def foldRune (c : Char) : Char :=
  if 'a' ≤ c ∧ c ≤ 'z' then Char.ofNat (c.toNat - 32)
  else if c = Char.ofNat 0x17f then 'S'
  else if c = Char.ofNat 0x212a then 'K'
  else c

/-- Whether an object key selects the struct field with the given JSON name:
an exact match, or else a match under case folding. -/
def fieldMatches (name key : String) : Bool :=
  decide (key = name) || decide (key.data.map foldRune = name.data.map foldRune)

/-- The body of an inbound request.  `main.go`: `type ChatRequest struct`. -/
structure ChatRequest where
  Message : String

/-- Store one object member into a `ChatRequest`: an unknown key is skipped,
`null` leaves the field alone, a string sets it and any other value is an
`UnmarshalTypeError`. -/
def ChatRequest.setMember (req : ChatRequest) (key : String) (v : JValue) : Option ChatRequest :=
  if fieldMatches "message" key then
    match v with
    | JValue.null => some req
    | JValue.str s => some { req with Message := s }
    | _ => none
  else some req

/-- Store the members of an object into a `ChatRequest`, in their order. -/
def ChatRequest.setMembers (req : ChatRequest) : List (String × JValue) → Option ChatRequest
  | [] => some req
  | (k, v) :: ms =>
    match req.setMember k v with
    | some req1 => req1.setMembers ms
    | none => none

/-- Unmarshal a JSON value into a `ChatRequest` variable: `null` leaves it as it
is, an object sets its fields, anything else is an error. -/
def ChatRequest.unmarshal (req : ChatRequest) : JValue → Option ChatRequest
  | JValue.null => some req
  | JValue.obj ms => req.setMembers ms
  | _ => none

/-- `json.NewDecoder(r.Body).Decode(&req)` on a zero `ChatRequest`; `none` is a
returned error. -/
def decodeChatRequest (body : String) : Option ChatRequest :=
  match decodeFirst body with
  | some v => ChatRequest.unmarshal { Message := "" } v
  | none => none

/-- One element of `ClaudeResponse.Content`: `struct { Text string }`. -/
structure ContentBlock where
  Text : String

/-- The reply of the provider.  `main.go`: `type ClaudeResponse struct`. -/
structure ClaudeResponse where
  Content : Slice ContentBlock

/-- Store one object member into a content block. -/
def ContentBlock.setMember (b : ContentBlock) (key : String) (v : JValue) : Option ContentBlock :=
  if fieldMatches "text" key then
    match v with
    | JValue.null => some b
    | JValue.str s => some { b with Text := s }
    | _ => none
  else some b

/-- Store the members of an object into a content block, in their order. -/
def ContentBlock.setMembers (b : ContentBlock) : List (String × JValue) → Option ContentBlock
  | [] => some b
  | (k, v) :: ms =>
    match b.setMember k v with
    | some b1 => b1.setMembers ms
    | none => none

/-- Unmarshal a JSON value into a content block. -/
def ContentBlock.unmarshal (b : ContentBlock) : JValue → Option ContentBlock
  | JValue.null => some b
  | JValue.obj ms => b.setMembers ms
  | _ => none

/-- Unmarshal the elements of a JSON array into the slots of a slice, as the loop
of the decoder's `array` does: element `i` is decoded into slot `i` of the
backing array as it stands, not zeroed first, and into a zero block where no
slot was written before. -/
def unmarshalBlocks : List ContentBlock → List JValue → Option (List ContentBlock)
  | _, [] => some []
  | [], v :: vs =>
    match ContentBlock.unmarshal { Text := "" } v with
    | none => none
    | some b =>
      match unmarshalBlocks [] vs with
      | some bs => some (b :: bs)
      | none => none
  | old :: olds, v :: vs =>
    match ContentBlock.unmarshal old v with
    | none => none
    | some b =>
      match unmarshalBlocks olds vs with
      | some bs => some (b :: bs)
      | none => none

/-- Unmarshal a JSON array into a slice of content blocks (the decoder's
`array`): an empty array gives a fresh empty slice; otherwise the elements are
decoded into the slots of the slice, the length becomes the number of elements
and the slots past it stay as they are. -/
def unmarshalContent (s : Slice ContentBlock) (vs : List JValue) :
    Option (Slice ContentBlock) :=
  match vs with
  | [] => some (Slice.mk [] [])
  | v :: rest =>
    match unmarshalBlocks s.backing (v :: rest) with
    | some bs => some (Slice.mk bs (s.backing.drop (v :: rest).length))
    | none => none

/-- Store one object member into a `ClaudeResponse`: an unknown key is skipped,
`null` sets the slice to nil, an array is decoded into the slice and any other
value is an `UnmarshalTypeError`. -/
def ClaudeResponse.setMember (resp : ClaudeResponse) (key : String) (v : JValue) :
    Option ClaudeResponse :=
  if fieldMatches "content" key then
    match v with
    | JValue.null => some { resp with Content := Slice.nil }
    | JValue.arr vs =>
      match unmarshalContent resp.Content vs with
      | some s => some { resp with Content := s }
      | none => none
    | _ => none
  else some resp

/-- Store the members of an object into a `ClaudeResponse`, in their order. -/
def ClaudeResponse.setMembers (resp : ClaudeResponse) :
    List (String × JValue) → Option ClaudeResponse
  | [] => some resp
  | (k, v) :: ms =>
    match resp.setMember k v with
    | some resp1 => resp1.setMembers ms
    | none => none

/-- Unmarshal a JSON value into a `ClaudeResponse` variable. -/
def ClaudeResponse.unmarshal (resp : ClaudeResponse) : JValue → Option ClaudeResponse
  | JValue.null => some resp
  | JValue.obj ms => resp.setMembers ms
  | _ => none

/-- `json.Unmarshal(out.Body, &resp)` on a zero `ClaudeResponse`; `none` is a
returned error. -/
def unmarshalClaudeResponse (data : String) : Option ClaudeResponse :=
  match parseDocument data with
  | some v => ClaudeResponse.unmarshal { Content := Slice.nil } v
  | none => none

/-! ## Encoding: `json.Marshal` and `json.Encoder` -/

/-- Lower-case hexadecimal digit, Go `hex = "0123456789abcdef"`. -/
def hexDigit (n : Nat) : Char :=
  if n < 10 then Char.ofNat ('0'.toNat + n) else Char.ofNat ('a'.toNat + (n - 10))

/-- Go `htmlSafeSet`: the ASCII characters written as they are when HTML
escaping is on, which is the default of `Marshal` and of `Encoder`. -/
def htmlSafe (c : Char) : Bool :=
  decide (0x20 ≤ c.toNat) && decide (c.toNat < 0x80) &&
    !(c = '"' || c = '&' || c = '<' || c = '>' || c = '\\')

/-- How `appendString` writes one character of a string.  Backspace and form
feed are written `\b` and `\f` as Go 1.22 and later do; earlier releases write
`\u0008` and `\u000c`, which the scanner reads as the same characters. -/
def escapeRune (c : Char) : List Char :=
  if c.toNat < 0x80 then
    if htmlSafe c then [c]
    else if c = '\\' ∨ c = '"' then ['\\', c]
    else if c = Char.ofNat 8 then ['\\', 'b']
    else if c = Char.ofNat 12 then ['\\', 'f']
    else if c = '\n' then ['\\', 'n']
    else if c = '\r' then ['\\', 'r']
    else if c = '\t' then ['\\', 't']
    else ['\\', 'u', '0', '0', hexDigit (c.toNat / 16), hexDigit (c.toNat % 16)]
  else if c = Char.ofNat 0x2028 ∨ c = Char.ofNat 0x2029 then
    ['\\', 'u', '2', '0', '2', hexDigit (c.toNat % 16)]
  else [c]

/-- The escaped characters of a string, without the quotes. -/
def escapeRunes : List Char → List Char
  | [] => []
  | c :: cs => escapeRune c ++ escapeRunes cs

/-- Go `appendString`: a string as a quoted JSON string literal. -/
def encodeString (s : String) : List Char :=
  '"' :: (escapeRunes s.data ++ ['"'])

/-- Go `int` written in decimal. -/
def encodeInt : Int → List Char
  | Int.ofNat n => Nat.toDigits 10 n
  | Int.negSucc n => '-' :: Nat.toDigits 10 (n + 1)

/-- A `float64` as `encoding/json` sees it.  A finite value is carried as the
shortest decimal text that reads back as that value, which is what `Marshal`
writes for a magnitude from 1e-6 up to 1e21; NaN and the infinities are kept
apart because `Marshal` rejects them. -/
inductive Float64 where
  | finite (text : String) : Float64
  | notFinite (text : String) : Float64
deriving DecidableEq

/-- Go `floatEncoder`: an `UnsupportedValueError` for NaN and the infinities. -/
def encodeFloat : Float64 → Except String (List Char)
  | Float64.finite t => Except.ok t.data
  | Float64.notFinite t => Except.error ("json: unsupported value: " ++ t)

/-- `main.go`: `type ClaudeContentBlock struct`.  The field `Type` of the source
is `Type_` here. -/
structure ClaudeContentBlock where
  Type_ : String
  Text : String
deriving DecidableEq

/-- `main.go`: `type ClaudeMessage struct`. -/
structure ClaudeMessage where
  Role : String
  Content : List ClaudeContentBlock
deriving DecidableEq

/-- `main.go`: `type ClaudeRequest struct`.  `Messages` and `Content` are only
ever built from non-empty literals and are lists; `StopSequences` is left at
its zero value by the source and is a slice. -/
structure ClaudeRequest where
  AnthropicVersion : String
  Messages : List ClaudeMessage
  MaxTokens : Int
  Temperature : Float64
  TopP : Float64
  StopSequences : Slice String

/-- Join encoded elements with commas. -/
def joinComma : List (List Char) → List Char
  | [] => []
  | [x] => x
  | x :: y :: rest => x ++ ',' :: joinComma (y :: rest)

/-- A list written as a JSON array. -/
def encodeArray (elems : List (List Char)) : List Char :=
  '[' :: (joinComma elems ++ [']'])

/-- Struct encoder for `ClaudeContentBlock`: keys `type`, `text`. -/
def encodeContentBlock (b : ClaudeContentBlock) : List Char :=
  "\x7b\"type\":".data ++ encodeString b.Type_ ++ ",\"text\":".data ++ encodeString b.Text ++ ['}']

/-- Struct encoder for `ClaudeMessage`: keys `role`, `content`. -/
def encodeMessage (m : ClaudeMessage) : List Char :=
  "\x7b\"role\":".data ++ encodeString m.Role ++ ",\"content\":".data ++
    encodeArray (m.Content.map encodeContentBlock) ++ ['}']

/-- The `stop_sequences` member, which `omitempty` drops for a slice of length 0. -/
def encodeStopSequences (s : Slice String) : List Char :=
  if s.len = 0 then []
  else ",\"stop_sequences\":".data ++ encodeArray (s.toList.map encodeString)

/-- `json.Marshal(input)` for a `ClaudeRequest`: the members in field order. -/
def marshalClaudeRequest (r : ClaudeRequest) : Except String String :=
  match encodeFloat r.Temperature, encodeFloat r.TopP with
  | Except.ok temp, Except.ok topP =>
    Except.ok (String.mk (
      "\x7b\"anthropic_version\":".data ++ encodeString r.AnthropicVersion ++
      ",\"messages\":".data ++ encodeArray (r.Messages.map encodeMessage) ++
      ",\"max_tokens\":".data ++ encodeInt r.MaxTokens ++
      ",\"temperature\":".data ++ temp ++
      ",\"top_p\":".data ++ topP ++
      encodeStopSequences r.StopSequences ++ ['}']))
  | Except.error e, _ => Except.error e
  | _, Except.error e => Except.error e

/-- `json.NewEncoder(w).Encode(map[string]string{"response": text})`: the
object, then a newline. -/
def encodeResponse (text : String) : String :=
  String.mk ("\x7b\"response\":".data ++ encodeString text ++ ['}', '\n'])

/-! ## The `/chat` handler and the port of `main` -/

/-- `main.go`: `modelId`. -/
def modelId : String := "anthropic.claude-3-haiku-20240307-v1:0"

/-- The part of `*http.Request` the program could look at. -/
structure Request where
  Method : String
  Body : String

/-- `bedrockruntime.InvokeModelInput` as the handler fills it. -/
structure InvokeModelInput where
  ModelId : String
  ContentType : String
  Body : String
deriving DecidableEq

/-- `bedrockruntime.InvokeModelOutput`: the reply body. -/
structure InvokeModelOutput where
  Body : String

/-- `client.InvokeModel`: for each input either an error, given by its text, or
an output.  This is one call of the SDK operation as the handler sees it; the
requests the SDK client sends within that call, its own retries among them, are
inside it. -/
abbrev Provider := InvokeModelInput → Except String InvokeModelOutput

/-- What the handler wrote to the `http.ResponseWriter`. -/
structure Response where
  Status : Nat
  ContentType : String
  Body : String
deriving DecidableEq

/-- Go `http.Error(w, msg, code)`: the status, a plain-text content type and
the message as one line. -/
def httpError (msg : String) (code : Nat) : Response :=
  { Status := code, ContentType := "text/plain; charset=utf-8", Body := msg ++ "\n" }

/-- How a run of the handler ends: with a response, or with a run-time panic. -/
inductive Outcome where
  | response (r : Response) : Outcome
  | panic (msg : String) : Outcome
deriving DecidableEq

/-- The calls of the handler that reach outside it, in their order. -/
inductive Event where
  | invoke (input : InvokeModelInput) : Event
  | log (line : String) : Event
  | unmarshal (data : String) : Event
deriving DecidableEq

/-- A run of the handler: how it ended and what it called. -/
structure Run where
  outcome : Outcome
  trace : List Event
deriving DecidableEq

/-- The `ClaudeRequest` literal of the handler. -/
def buildRequest (message : String) : ClaudeRequest :=
  { AnthropicVersion := "bedrock-2023-05-31"
    Messages := [{ Role := "user", Content := [{ Type_ := "text", Text := message }] }]
    MaxTokens := 1024
    Temperature := Float64.finite "0.7"
    TopP := Float64.finite "0.9"
    StopSequences := Slice.nil }

/-- The `InvokeModelInput` of the handler for a payload. -/
def invokeInput (payload : String) : InvokeModelInput :=
  { ModelId := modelId, ContentType := "application/json", Body := payload }

/-- The handler registered for `/chat`. -/
def chatHandler (client : Provider) (r : Request) : Run :=
  match decodeChatRequest r.Body with
  | none => { outcome := Outcome.response (httpError "Invalid request" 400), trace := [] }
  | some req =>
    match marshalClaudeRequest (buildRequest req.Message) with
    | Except.error _ =>
      { outcome := Outcome.response (httpError "Failed to marshal request" 500), trace := [] }
    | Except.ok payload =>
      match client (invokeInput payload) with
      | Except.error err =>
        { outcome := Outcome.response (httpError "Bedrock API error" 500)
          trace := [Event.invoke (invokeInput payload), Event.log ("Bedrock API error: " ++ err)] }
      | Except.ok out =>
        match unmarshalClaudeResponse out.Body with
        | none =>
          { outcome := Outcome.response (httpError "Failed to parse Bedrock response" 500)
            trace := [Event.invoke (invokeInput payload), Event.unmarshal out.Body] }
        | some resp =>
          match resp.Content.toList with
          | [] =>
            { outcome := Outcome.panic "runtime error: index out of range [0] with length 0"
              trace := [Event.invoke (invokeInput payload), Event.unmarshal out.Body] }
          | first :: _ =>
            { outcome := Outcome.response
                { Status := 200, ContentType := "application/json"
                  Body := encodeResponse first.Text }
              trace := [Event.invoke (invokeInput payload), Event.unmarshal out.Body] }

/-- The calls of `client.InvokeModel` a run made, in their order. -/
def Run.invocations (run : Run) : List InvokeModelInput :=
  run.trace.filterMap (fun e => match e with
    | Event.invoke i => some i
    | _ => none)

/-- The reply bodies a run handed to `json.Unmarshal`. -/
def Run.parsed (run : Run) : List String :=
  run.trace.filterMap (fun e => match e with
    | Event.unmarshal d => some d
    | _ => none)

/-- Go `os.Getenv("PORT")`: the empty string when the variable is unset. -/
def getenvPort (env : Option String) : String :=
  match env with
  | some v => v
  | none => ""

/-- The port `main` serves on. -/
def selectPort (env : Option String) : String :=
  if getenvPort env = "" then "8080" else getenvPort env

/-- The address `main` passes to `http.ListenAndServe`. -/
def listenAddr (env : Option String) : String :=
  ":" ++ selectPort env

/-! ## Definitions used to state the properties -/

/-- The text of the payload for a message: what `json.Marshal` gives for
`buildRequest` (theorem `marshal_buildRequest`). -/
def payloadChars (m : List Char) : List Char :=
  "\x7b\"anthropic_version\":\"bedrock-2023-05-31\",\"messages\":[\x7b\"role\":\"user\",\"content\":[\x7b\"type\":\"text\",\"text\":\"".data
    ++ (escapeRunes m ++
      "\"\x7d]\x7d],\"max_tokens\":1024,\"temperature\":0.7,\"top_p\":0.9\x7d".data)

/-- The JSON value the payload for a message stands for. -/
def payloadValue (m : String) : JValue :=
  JValue.obj [
    ("anthropic_version", JValue.str "bedrock-2023-05-31"),
    ("messages", JValue.arr [JValue.obj [
      ("role", JValue.str "user"),
      ("content", JValue.arr [JValue.obj [
        ("type", JValue.str "text"),
        ("text", JValue.str m)]])]]),
    ("max_tokens", JValue.num "1024"),
    ("temperature", JValue.num "0.7"),
    ("top_p", JValue.num "0.9")]

/-- Whether a member of an object is a `message` key with a string value. -/
def isMessageString (kv : String × JValue) : Bool :=
  match kv.2 with
  | JValue.str _ => decide (kv.1 = "message")
  | _ => false

/-- The shape the specification expects of an inbound body, in its words:
valid JSON that is an object with a `message` string field. -/
def specExpectedShape (body : String) : Bool :=
  match parseDocument body with
  | some (JValue.obj ms) => ms.any isMessageString
  | _ => false

/-- Whether a member of an object is a `text` key with a string value. -/
def isTextString (kv : String × JValue) : Bool :=
  match kv.2 with
  | JValue.str _ => decide (kv.1 = "text")
  | _ => false

/-- Whether a JSON value is an object with a `text` string field. -/
def isTextBlock (v : JValue) : Bool :=
  match v with
  | JValue.obj ms => ms.any isTextString
  | _ => false

/-- Whether a member of an object is a `content` key with an array of objects
that each have a `text` string field. -/
def isContentArray (kv : String × JValue) : Bool :=
  match kv.2 with
  | JValue.arr vs => decide (kv.1 = "content") && vs.all isTextBlock
  | _ => false

/-- The shape the specification expects of a reply body, in its words: valid
JSON of the form `{"content": [{"text": ...}, ...]}`. -/
def specExpectedReplyShape (body : String) : Bool :=
  match parseDocument body with
  | some (JValue.obj ms) => ms.any isContentArray
  | _ => false

/-- A provider that answers every call with the same reply body. -/
def replyWith (body : String) : Provider :=
  fun _ => Except.ok { Body := body }

/-- A provider that fails every call with the same error. -/
def failWith (err : String) : Provider :=
  fun _ => Except.error err

/-! ## The scanner reads back what the encoder writes -/

theorem scanString_plain (c : Char) (tail : List Char) (h1 : c ≠ '"') (h2 : c ≠ '\\')
    (h3 : ¬ c.toNat < 0x20) : scanString 0 (c :: tail) = consChar c (scanString 0 tail) := by
  rw [scanString.eq_def]
  simp [h1, h2, h3]

theorem scanString_unicode (a b c d : Char) (rr : Nat) (tail : List Char)
    (h : hex4 a b c d = some rr) (hs : isSurrogate rr = false) :
    scanString 0 ('\\' :: 'u' :: a :: b :: c :: d :: tail)
      = consChar (Char.ofNat rr) (scanString 0 tail) := by
  rw [scanString.eq_def]
  simp [h, hs]

theorem scanString_short (e ch : Char) (tail : List Char) (hu : e ≠ 'u')
    (h : unescape e = some ch) :
    scanString 0 ('\\' :: e :: tail) = consChar ch (scanString 0 tail) := by
  rw [scanString.eq_def]
  simp [hu, h]

theorem hexVal_hexDigit : ∀ n, n < 16 → hexVal (hexDigit n) = some n := by decide

theorem hex4_byte (n : Nat) (hn : n < 256) :
    hex4 '0' '0' (hexDigit (n / 16)) (hexDigit (n % 16)) = some n := by
  have h1 := hexVal_hexDigit (n / 16) (by omega)
  have h2 := hexVal_hexDigit (n % 16) (by omega)
  have h0 : hexVal '0' = some 0 := by decide
  simp only [hex4, h0, h1, h2]
  congr 1
  omega

theorem scanString_escapeRune (c : Char) (tail : List Char) :
    scanString 0 (escapeRune c ++ tail) = consChar c (scanString 0 tail) := by
  unfold escapeRune
  split_ifs with h1 h2 h3 h4 h5 h6 h7 h8 h9
  · -- written as it is
    simp only [htmlSafe, Bool.and_eq_true, decide_eq_true_eq, Bool.not_eq_true',
      Bool.or_eq_false_iff, decide_eq_false_iff_not] at h2
    exact scanString_plain c tail h2.2.1.1.1.1 h2.2.2 (by omega)
  · rcases h3 with rfl | rfl
    · exact scanString_short _ _ tail (by decide) (by decide)
    · exact scanString_short _ _ tail (by decide) (by decide)
  · subst h4; exact scanString_short _ _ tail (by decide) (by decide)
  · subst h5; exact scanString_short _ _ tail (by decide) (by decide)
  · subst h6; exact scanString_short _ _ tail (by decide) (by decide)
  · subst h7; exact scanString_short _ _ tail (by decide) (by decide)
  · subst h8; exact scanString_short _ _ tail (by decide) (by decide)
  · have h := scanString_unicode '0' '0' (hexDigit (c.toNat / 16)) (hexDigit (c.toNat % 16))
      c.toNat tail (hex4_byte c.toNat (by omega)) (by simp [isSurrogate]; omega)
    rw [Char.ofNat_toNat] at h
    exact h
  · rcases h9 with rfl | rfl
    · exact scanString_unicode '2' '0' '2' _ 0x2028 tail (by decide) (by decide)
    · exact scanString_unicode '2' '0' '2' _ 0x2029 tail (by decide) (by decide)
  · have hq : c ≠ '"' := by rintro rfl; exact h1 (by decide)
    have hb : c ≠ '\\' := by rintro rfl; exact h1 (by decide)
    exact scanString_plain c tail hq hb (by omega)

theorem consChar_some (c : Char) (s rest : List Char) :
    consChar c (some (s, rest)) = some (c :: s, rest) := rfl

/-- Scanning the escaped form of a string gives the string back. -/
theorem scanString_escapeRunes (s tail : List Char) :
    scanString 0 (escapeRunes s ++ '"' :: tail) = some (s, tail) := by
  induction s with
  | nil => rw [scanString.eq_def]; simp [escapeRunes]
  | cons c cs ih =>
    simp only [escapeRunes, List.append_assoc]
    rw [scanString_escapeRune, ih, consChar_some]

theorem skipSpace_of_not_space (c : Char) (cs : List Char) (h : isSpace c = false) :
    skipSpace (c :: cs) = c :: cs := by
  simp [skipSpace, h]

theorem parseValue_str (f d : Nat) (s tail : List Char) :
    parseValue (f + 1) d ('"' :: (escapeRunes s ++ '"' :: tail))
      = some (JValue.str (String.mk s), tail) := by
  rw [parseValue]
  rw [skipSpace_of_not_space _ _ (by decide)]
  simp [scanString_escapeRunes]

theorem parseMembers_last (f d : Nat) (k rest r : List Char) (v : JValue)
    (h : parseValue f d rest = some (v, '}' :: r)) :
    parseMembers (f + 1) d ('"' :: (escapeRunes k ++ '"' :: ':' :: rest))
      = some ([(String.mk k, v)], r) := by
  rw [parseMembers]
  rw [skipSpace_of_not_space _ _ (by decide)]
  simp [scanString_escapeRunes, skipSpace_of_not_space, isSpace, h]

theorem parseMembers_more (f d : Nat) (k rest r r1 : List Char) (v : JValue)
    (ms : List (String × JValue))
    (h : parseValue f d rest = some (v, ',' :: r))
    (hm : parseMembers f d r = some (ms, r1)) :
    parseMembers (f + 1) d ('"' :: (escapeRunes k ++ '"' :: ':' :: rest))
      = some ((String.mk k, v) :: ms, r1) := by
  rw [parseMembers]
  rw [skipSpace_of_not_space _ _ (by decide)]
  simp [scanString_escapeRunes, skipSpace_of_not_space, isSpace, h, hm]

theorem parseValue_obj (f d : Nat) (rest r : List Char) (ms : List (String × JValue))
    (hd : d < maxNestingDepth)
    (h : parseMembers f (d + 1) ('"' :: rest) = some (ms, r)) :
    parseValue (f + 1) d ('{' :: '"' :: rest) = some (JValue.obj ms, r) := by
  rw [parseValue]
  rw [skipSpace_of_not_space _ _ (by decide)]
  simp [skipSpace_of_not_space, isSpace, h, Nat.not_le.mpr hd]

theorem parseValue_arr_one (f d : Nat) (rest r : List Char) (v : JValue)
    (hd : d < maxNestingDepth)
    (h : parseValue f (d + 1) ('{' :: rest) = some (v, ']' :: r)) :
    parseValue (f + 2) d ('[' :: '{' :: rest) = some (JValue.arr [v], r) := by
  rw [parseValue]
  rw [skipSpace_of_not_space _ _ (by decide)]
  simp [skipSpace_of_not_space, isSpace, Nat.not_le.mpr hd, parseElems, h]

theorem parseValue_num_1024 (f d : Nat) (tail : List Char) :
    parseValue (f + 1) d ('1' :: '0' :: '2' :: '4' :: ',' :: tail)
      = some (JValue.num "1024", ',' :: tail) := by
  rw [parseValue]
  rw [skipSpace_of_not_space _ _ (by decide)]
  simp [scanNumber, scanUnsigned, scanInt, scanFrac, scanExp, spanDigits, isDigit]

theorem parseValue_num_temperature (f d : Nat) (tail : List Char) :
    parseValue (f + 1) d ('0' :: '.' :: '7' :: ',' :: tail)
      = some (JValue.num "0.7", ',' :: tail) := by
  rw [parseValue]
  rw [skipSpace_of_not_space _ _ (by decide)]
  simp [scanNumber, scanUnsigned, scanInt, scanFrac, scanExp, spanDigits, isDigit]

theorem parseValue_num_top_p (f d : Nat) (tail : List Char) :
    parseValue (f + 1) d ('0' :: '.' :: '9' :: '}' :: tail)
      = some (JValue.num "0.9", '}' :: tail) := by
  rw [parseValue]
  rw [skipSpace_of_not_space _ _ (by decide)]
  simp [scanNumber, scanUnsigned, scanInt, scanFrac, scanExp, spanDigits, isDigit]

theorem payloadChars_eq (m tail : List Char) :
    payloadChars m ++ tail =
    '{' :: '"' :: (escapeRunes "anthropic_version".data ++ '"' :: ':' ::
      '"' :: (escapeRunes "bedrock-2023-05-31".data ++ '"' :: ',' ::
      '"' :: (escapeRunes "messages".data ++ '"' :: ':' :: '[' :: '{' ::
      '"' :: (escapeRunes "role".data ++ '"' :: ':' ::
      '"' :: (escapeRunes "user".data ++ '"' :: ',' ::
      '"' :: (escapeRunes "content".data ++ '"' :: ':' :: '[' :: '{' ::
      '"' :: (escapeRunes "type".data ++ '"' :: ':' ::
      '"' :: (escapeRunes "text".data ++ '"' :: ',' ::
      '"' :: (escapeRunes "text".data ++ '"' :: ':' ::
      '"' :: (escapeRunes m ++ '"' :: '}' :: ']' :: '}' :: ']' :: ',' ::
      '"' :: (escapeRunes "max_tokens".data ++ '"' :: ':' ::
      '1' :: '0' :: '2' :: '4' :: ',' ::
      '"' :: (escapeRunes "temperature".data ++ '"' :: ':' ::
      '0' :: '.' :: '7' :: ',' ::
      '"' :: (escapeRunes "top_p".data ++ '"' :: ':' ::
      '0' :: '.' :: '9' :: '}' :: tail))))))))))))) := by
  simp [payloadChars, escapeRunes, escapeRune, htmlSafe]

theorem parseValue_payload (k : Nat) (m tail : List Char) :
    parseValue (k + 14) 0 (payloadChars m ++ tail) = some (payloadValue (String.mk m), tail) := by
  rw [payloadChars_eq]
  have hd : ∀ n, n < 5 → n < maxNestingDepth := by intro n hn; unfold maxNestingDepth; omega
  apply parseValue_obj _ _ _ _ _ (hd 0 (by decide))
  apply parseMembers_more _ _ _ _ _ _ _ _ (parseValue_str _ _ _ _)
  apply parseMembers_more
  · apply parseValue_arr_one _ _ _ _ _ (hd 1 (by decide))
    apply parseValue_obj _ _ _ _ _ (hd 2 (by decide))
    apply parseMembers_more _ _ _ _ _ _ _ _ (parseValue_str _ _ _ _)
    apply parseMembers_last
    apply parseValue_arr_one _ _ _ _ _ (hd 3 (by decide))
    apply parseValue_obj _ _ _ _ _ (hd 4 (by decide))
    apply parseMembers_more _ _ _ _ _ _ _ _ (parseValue_str _ _ _ _)
    apply parseMembers_last
    exact parseValue_str _ _ _ _
  · apply parseMembers_more _ _ _ _ _ _ _ _ (parseValue_num_1024 _ _ _)
    apply parseMembers_more _ _ _ _ _ _ _ _ (parseValue_num_temperature _ _ _)
    apply parseMembers_last
    exact parseValue_num_top_p _ _ _

/-! ## The fuel of the scanner is always enough -/

theorem skipSpace_length (cs : List Char) : (skipSpace cs).length ≤ cs.length := by
  induction cs with
  | nil => simp [skipSpace]
  | cons c cs ih =>
    simp only [skipSpace]
    split
    · simp only [List.length_cons]; omega
    · exact Nat.le_refl _

theorem consChar_eq_some (c : Char) (x : Option (List Char × List Char)) (s r : List Char)
    (h : consChar c x = some (s, r)) : ∃ s1, x = some (s1, r) := by
  cases x with
  | none => simp [consChar] at h
  | some p =>
    obtain ⟨s1, r1⟩ := p
    simp only [consChar, Option.some.injEq, Prod.mk.injEq] at h
    exact ⟨s1, by rw [h.2]⟩

theorem scanString_length_aux (n : Nat) : ∀ (skip : Nat) (cs s r : List Char),
    cs.length ≤ n → scanString skip cs = some (s, r) → r.length < cs.length := by
  induction n with
  | zero =>
    intro skip cs s r hn h
    have : cs = [] := List.length_eq_zero.mp (Nat.le_zero.mp hn)
    subst this
    rw [scanString.eq_def] at h
    simp at h
  | succ n ih =>
    intro skip cs s r hn h
    rw [scanString.eq_def] at h
    split at h
    · simp at h
    · rename_i sk c cs1
      have := ih sk cs1 s r (by simp only [List.length_cons] at hn; omega) h
      simp only [List.length_cons]; omega
    · rename_i c cs1
      simp only [List.length_cons] at hn ⊢
      split at h
      · simp only [Option.some.injEq, Prod.mk.injEq] at h
        rw [← h.2]; omega
      · split at h
        · split at h
          · simp at h
          · rename_i e rest
            simp only [List.length_cons] at hn ⊢
            split at h
            · split at h
              · rename_i h1 h2 h3 h4 rest4
                simp only [List.length_cons] at hn ⊢
                split at h
                · simp at h
                · split at h
                  · split at h
                    · split at h
                      · obtain ⟨s1, hs⟩ := consChar_eq_some _ _ _ _ h
                        have := ih 0 rest4 s1 r (by omega) hs
                        omega
                      · obtain ⟨s1, hs⟩ := consChar_eq_some _ _ _ _ h
                        have := ih 6 rest4 s1 r (by omega) hs
                        omega
                    · obtain ⟨s1, hs⟩ := consChar_eq_some _ _ _ _ h
                      have := ih 0 rest4 s1 r (by omega) hs
                      omega
                  · obtain ⟨s1, hs⟩ := consChar_eq_some _ _ _ _ h
                    have := ih 0 rest4 s1 r (by omega) hs
                    omega
              · simp at h
            · split at h
              · obtain ⟨s1, hs⟩ := consChar_eq_some _ _ _ _ h
                have := ih 0 rest s1 r (by omega) hs
                omega
              · simp at h
        · split at h
          · simp at h
          · obtain ⟨s1, hs⟩ := consChar_eq_some _ _ _ _ h
            have := ih 0 cs1 s1 r (by omega) hs
            omega

theorem scanString_length (skip : Nat) (cs s r : List Char)
    (h : scanString skip cs = some (s, r)) : r.length < cs.length :=
  scanString_length_aux cs.length skip cs s r (Nat.le_refl _) h

theorem spanDigits_length (cs : List Char) : (spanDigits cs).2.length ≤ cs.length := by
  induction cs with
  | nil => simp [spanDigits]
  | cons c cs ih =>
    simp only [spanDigits]
    split
    · simp only [List.length_cons]; omega
    · exact Nat.le_refl _

theorem stripWord_length (w cs r : List Char) (h : stripWord w cs = some r) :
    r.length ≤ cs.length := by
  induction w generalizing cs with
  | nil =>
    cases cs <;> simp only [stripWord, Option.some.injEq] at h <;> rw [← h]
  | cons a w ih =>
    cases cs with
    | nil => simp [stripWord] at h
    | cons c cs =>
      simp only [stripWord] at h
      split at h
      · have := ih cs h
        simp only [List.length_cons]; omega
      · simp at h

theorem scanInt_length (cs n r : List Char) (h : scanInt cs = some (n, r)) :
    r.length < cs.length := by
  cases cs with
  | nil => simp [scanInt] at h
  | cons c cs =>
    simp only [scanInt] at h
    split at h
    · simp only [Option.some.injEq, Prod.mk.injEq] at h
      rw [← h.2]; simp
    · split at h
      · simp only [Option.some.injEq, Prod.mk.injEq] at h
        rw [← h.2]
        have := spanDigits_length cs
        simp only [List.length_cons]; omega
      · simp at h

theorem scanFrac_length (cs n r : List Char) (h : scanFrac cs = some (n, r)) :
    r.length ≤ cs.length := by
  cases cs with
  | nil =>
    simp only [scanFrac, Option.some.injEq, Prod.mk.injEq] at h
    rw [← h.2]
  | cons c cs =>
    simp only [scanFrac] at h
    split at h
    · split at h
      · simp at h
      · simp only [Option.some.injEq, Prod.mk.injEq] at h
        rw [← h.2]
        have := spanDigits_length cs
        simp only [List.length_cons]; omega
    · simp only [Option.some.injEq, Prod.mk.injEq] at h
      rw [← h.2]

theorem scanExpDigits_length (cs n r : List Char) (h : scanExpDigits cs = some (n, r)) :
    r.length ≤ cs.length := by
  simp only [scanExpDigits] at h
  split at h
  · simp at h
  · simp only [Option.some.injEq, Prod.mk.injEq] at h
    rw [← h.2]
    exact spanDigits_length cs

theorem scanExp_length (cs n r : List Char) (h : scanExp cs = some (n, r)) :
    r.length ≤ cs.length := by
  cases cs with
  | nil =>
    simp only [scanExp, Option.some.injEq, Prod.mk.injEq] at h
    rw [← h.2]
  | cons c cs =>
    simp only [scanExp] at h
    split at h
    · split at h
      · simp at h
      · rename_i s cs1
        split at h
        · split at h
          · rename_i d r1 hd
            simp only [Option.some.injEq, Prod.mk.injEq] at h
            rw [← h.2]
            have := scanExpDigits_length _ _ _ hd
            simp only [List.length_cons]; omega
          · simp at h
        · split at h
          · rename_i d r1 hd
            simp only [Option.some.injEq, Prod.mk.injEq] at h
            rw [← h.2]
            have := scanExpDigits_length _ _ _ hd
            simp only [List.length_cons] at this ⊢; omega
          · simp at h
    · simp only [Option.some.injEq, Prod.mk.injEq] at h
      rw [← h.2]

theorem scanUnsigned_length (cs n r : List Char) (h : scanUnsigned cs = some (n, r)) :
    r.length < cs.length := by
  simp only [scanUnsigned] at h
  split at h
  · simp at h
  · rename_i i r1 hi
    split at h
    · simp at h
    · rename_i f r2 hf
      split at h
      · simp at h
      · rename_i e r3 he
        simp only [Option.some.injEq, Prod.mk.injEq] at h
        rw [← h.2]
        have h1 := scanInt_length _ _ _ hi
        have h2 := scanFrac_length _ _ _ hf
        have h3 := scanExp_length _ _ _ he
        omega

theorem scanNumber_length (cs n r : List Char) (h : scanNumber cs = some (n, r)) :
    r.length < cs.length := by
  cases cs with
  | nil => simp [scanNumber] at h
  | cons c cs =>
    simp only [scanNumber] at h
    split at h
    · split at h
      · rename_i m r1 hu
        simp only [Option.some.injEq, Prod.mk.injEq] at h
        rw [← h.2]
        have := scanUnsigned_length _ _ _ hu
        simp only [List.length_cons]; omega
      · simp at h
    · exact scanUnsigned_length _ _ _ h

theorem length_of_skipSpace_eq (cs rest : List Char) (c : Char)
    (h : skipSpace cs = c :: rest) : rest.length < cs.length := by
  have := skipSpace_length cs
  rw [h] at this
  simp only [List.length_cons] at this
  omega

/-- Every successful scan of a value, of members or of elements uses up input. -/
theorem parse_length (f : Nat) :
    (∀ d cs v r, parseValue f d cs = some (v, r) → r.length < cs.length) ∧
    (∀ d cs ms r, parseMembers f d cs = some (ms, r) → r.length < cs.length) ∧
    (∀ d cs vs r, parseElems f d cs = some (vs, r) → r.length < cs.length) := by
  induction f with
  | zero =>
    refine ⟨?_, ?_, ?_⟩ <;> intro d cs v r h
    · simp [parseValue] at h
    · simp [parseMembers] at h
    · simp [parseElems] at h
  | succ f ih =>
    obtain ⟨ihv, ihm, ihe⟩ := ih
    refine ⟨?_, ?_, ?_⟩
    · intro d cs v r h
      rw [parseValue] at h
      split at h
      · simp at h
      · rename_i c rest hs
        have hrest := length_of_skipSpace_eq _ _ _ hs
        split at h
        · split at h
          · simp at h
          · split at h
            · simp at h
            · rename_i c2 rest2 hs2
              have hrest2 := length_of_skipSpace_eq _ _ _ hs2
              split at h
              · simp only [Option.some.injEq, Prod.mk.injEq] at h
                rw [← h.2]; omega
              · split at h
                · rename_i ms r1 hm
                  simp only [Option.some.injEq, Prod.mk.injEq] at h
                  rw [← h.2]
                  have := ihm _ _ _ _ hm
                  simp only [List.length_cons] at this
                  omega
                · simp at h
        · split at h
          · split at h
            · simp at h
            · split at h
              · simp at h
              · rename_i c2 rest2 hs2
                have hrest2 := length_of_skipSpace_eq _ _ _ hs2
                split at h
                · simp only [Option.some.injEq, Prod.mk.injEq] at h
                  rw [← h.2]; omega
                · split at h
                  · rename_i vs r1 hm
                    simp only [Option.some.injEq, Prod.mk.injEq] at h
                    rw [← h.2]
                    have := ihe _ _ _ _ hm
                    simp only [List.length_cons] at this
                    omega
                  · simp at h
          · split at h
            · split at h
              · rename_i s r1 hm
                simp only [Option.some.injEq, Prod.mk.injEq] at h
                rw [← h.2]
                have := scanString_length _ _ _ _ hm
                omega
              · simp at h
            · split at h
              · split at h
                · rename_i r1 hm
                  simp only [Option.some.injEq, Prod.mk.injEq] at h
                  rw [← h.2]
                  have := stripWord_length _ _ _ hm
                  omega
                · simp at h
              · split at h
                · split at h
                  · rename_i r1 hm
                    simp only [Option.some.injEq, Prod.mk.injEq] at h
                    rw [← h.2]
                    have := stripWord_length _ _ _ hm
                    omega
                  · simp at h
                · split at h
                  · split at h
                    · rename_i r1 hm
                      simp only [Option.some.injEq, Prod.mk.injEq] at h
                      rw [← h.2]
                      have := stripWord_length _ _ _ hm
                      omega
                    · simp at h
                  · split at h
                    · rename_i n r1 hm
                      simp only [Option.some.injEq, Prod.mk.injEq] at h
                      rw [← h.2]
                      have := scanNumber_length _ _ _ hm
                      simp only [List.length_cons] at this
                      omega
                    · simp at h
    · intro d cs ms r h
      rw [parseMembers] at h
      split at h
      · simp at h
      · rename_i c rest hs
        have hrest := length_of_skipSpace_eq _ _ _ hs
        split at h
        · split at h
          · simp at h
          · rename_i k r1 hk
            have hr1 := scanString_length _ _ _ _ hk
            split at h
            · simp at h
            · rename_i c1 r2 hs1
              have hr2 := length_of_skipSpace_eq _ _ _ hs1
              split at h
              · split at h
                · simp at h
                · rename_i v r3 hv
                  have hr3 := ihv _ _ _ _ hv
                  split at h
                  · simp at h
                  · rename_i c3 r4 hs3
                    have hr4 := length_of_skipSpace_eq _ _ _ hs3
                    split at h
                    · split at h
                      · rename_i ms1 r5 hm
                        simp only [Option.some.injEq, Prod.mk.injEq] at h
                        rw [← h.2]
                        have := ihm _ _ _ _ hm
                        omega
                      · simp at h
                    · split at h
                      · simp only [Option.some.injEq, Prod.mk.injEq] at h
                        rw [← h.2]; omega
                      · simp at h
              · simp at h
        · simp at h
    · intro d cs vs r h
      rw [parseElems] at h
      split at h
      · simp at h
      · rename_i v r1 hv
        have hr1 := ihv _ _ _ _ hv
        split at h
        · simp at h
        · rename_i c r2 hs
          have hr2 := length_of_skipSpace_eq _ _ _ hs
          split at h
          · split at h
            · rename_i vs1 r3 hm
              simp only [Option.some.injEq, Prod.mk.injEq] at h
              rw [← h.2]
              have := ihe _ _ _ _ hm
              omega
            · simp at h
          · split at h
            · simp only [Option.some.injEq, Prod.mk.injEq] at h
              rw [← h.2]; omega
            · simp at h

/-- A scan that succeeds with some amount of fuel succeeds, with the same result,
with any fuel of at least twice the length of the input plus two. -/
theorem parse_fuel (f : Nat) :
    (∀ d cs v r, parseValue f d cs = some (v, r) →
      ∀ g, 2 * cs.length + 1 ≤ g → parseValue g d cs = some (v, r)) ∧
    (∀ d cs ms r, parseMembers f d cs = some (ms, r) →
      ∀ g, 2 * cs.length + 1 ≤ g → parseMembers g d cs = some (ms, r)) ∧
    (∀ d cs vs r, parseElems f d cs = some (vs, r) →
      ∀ g, 2 * cs.length + 2 ≤ g → parseElems g d cs = some (vs, r)) := by
  induction f with
  | zero =>
    refine ⟨?_, ?_, ?_⟩ <;> intro d cs v r h
    · simp [parseValue] at h
    · simp [parseMembers] at h
    · simp [parseElems] at h
  | succ f ih =>
    obtain ⟨ihv, ihm, ihe⟩ := ih
    refine ⟨?_, ?_, ?_⟩
    · intro d cs v r h g hg
      obtain ⟨g1, rfl⟩ : ∃ g1, g = g1 + 1 := ⟨g - 1, by omega⟩
      rw [parseValue] at h ⊢
      split at h
      · simp at h
      · rename_i c rest hs
        have hrest := length_of_skipSpace_eq _ _ _ hs
        split at h
        · split at h
          · simp at h
          · split at h
            · simp at h
            · rename_i c2 rest2 hs2
              have hrest2 := length_of_skipSpace_eq _ _ _ hs2
              split at h
              · simp [*]
              · split at h
                · rename_i ms r1 hm
                  have hm1 := ihm _ _ _ _ hm g1 (by simp only [List.length_cons]; omega)
                  simp [*]
                · simp at h
        · split at h
          · split at h
            · simp at h
            · split at h
              · simp at h
              · rename_i c2 rest2 hs2
                have hrest2 := length_of_skipSpace_eq _ _ _ hs2
                split at h
                · simp [*]
                · split at h
                  · rename_i vs r1 hm
                    have hm1 := ihe _ _ _ _ hm g1 (by simp only [List.length_cons]; omega)
                    simp [*]
                  · simp at h
          · simp [*]
    · intro d cs ms r h g hg
      obtain ⟨g1, rfl⟩ : ∃ g1, g = g1 + 1 := ⟨g - 1, by omega⟩
      rw [parseMembers] at h ⊢
      split at h
      · simp at h
      · rename_i c rest hs
        have hrest := length_of_skipSpace_eq _ _ _ hs
        split at h
        · split at h
          · simp at h
          · rename_i k r1 hk
            have hr1 := scanString_length _ _ _ _ hk
            split at h
            · simp at h
            · rename_i c1 r2 hs1
              have hr2 := length_of_skipSpace_eq _ _ _ hs1
              split at h
              · split at h
                · simp at h
                · rename_i v r3 hv
                  have hr3 := (parse_length f).1 _ _ _ _ hv
                  have hv1 := ihv _ _ _ _ hv g1 (by omega)
                  split at h
                  · simp at h
                  · rename_i c3 r4 hs3
                    have hr4 := length_of_skipSpace_eq _ _ _ hs3
                    split at h
                    · split at h
                      · rename_i ms1 r5 hm
                        have hm1 := ihm _ _ _ _ hm g1 (by omega)
                        simp [*]
                      · simp at h
                    · simp [*]
              · simp at h
        · simp at h
    · intro d cs vs r h g hg
      obtain ⟨g1, rfl⟩ : ∃ g1, g = g1 + 1 := ⟨g - 1, by omega⟩
      rw [parseElems] at h ⊢
      split at h
      · simp at h
      · rename_i v r1 hv
        have hr1 := (parse_length f).1 _ _ _ _ hv
        have hv1 := ihv _ _ _ _ hv g1 (by omega)
        split at h
        · simp at h
        · rename_i c r2 hs
          have hr2 := length_of_skipSpace_eq _ _ _ hs
          split at h
          · split at h
            · rename_i vs1 r3 hm
              have hm1 := ihe _ _ _ _ hm g1 (by omega)
              simp [*]
            · simp at h
          · simp [*]

/-- The fuel `decodeFirst` gives the scanner is enough: a body it rejects is
rejected with every amount of fuel. -/
theorem decodeFirst_none_of_fuel (body : String) (h : decodeFirst body = none) (f : Nat) :
    parseValue f 0 body.data = none := by
  cases hp : parseValue f 0 body.data with
  | none => rfl
  | some p =>
    obtain ⟨v, r⟩ := p
    have hg := (parse_fuel f).1 0 body.data v r hp (fuelFor body.data)
      (by unfold fuelFor; omega)
    simp [decodeFirst, hg] at h

/-- The fuel `parseDocument` gives the scanner is enough: whatever the scanner
reads from a text with some amount of fuel, it reads with that fuel. -/
theorem parseValue_fuelFor (text : String) (f : Nat) (v : JValue) (r : List Char)
    (h : parseValue f 0 text.data = some (v, r)) :
    parseValue (fuelFor text.data) 0 text.data = some (v, r) :=
  (parse_fuel f).1 0 text.data v r h (fuelFor text.data) (by unfold fuelFor; omega)

/-- How the decoder of the inbound body treats some bodies: a missing field, a
`null`, a key in another case, an unknown key and text after the value are
accepted; a value of the wrong type and a cut-off body are errors. -/
theorem decodeChatRequest_examples :
    (decodeChatRequest "\x7b\"message\":\"hi\"\x7d").map ChatRequest.Message = some "hi" ∧
    (decodeChatRequest "\x7b\x7d").map ChatRequest.Message = some "" ∧
    (decodeChatRequest "null").map ChatRequest.Message = some "" ∧
    (decodeChatRequest " \x7b\"Message\":\"hi\",\"n\":[1,2]\x7d x").map ChatRequest.Message
      = some "hi" ∧
    (decodeChatRequest "\x7b\"message\":5\x7d").map ChatRequest.Message = none ∧
    (decodeChatRequest "[]").map ChatRequest.Message = none ∧
    (decodeChatRequest "\x7b\"message\":\"hi\"").map ChatRequest.Message = none ∧
    (decodeChatRequest "").map ChatRequest.Message = none :=
  ⟨rfl, rfl, rfl, rfl, rfl, rfl, rfl, rfl⟩

/-- How `json.Unmarshal` treats some reply bodies.  A missing `text` gives the
empty text and a missing or `null` `content` the nil slice.  When the `content`
key comes again, `null` sets the slice back to nil, an empty array empties it,
and the elements of an array are decoded into the blocks already there, whose
text stays where the new element has none, also in a slot that an earlier,
shorter array had cut off.  A value of the wrong type and text after the
document are errors. -/
theorem unmarshalClaudeResponse_examples :
    (unmarshalClaudeResponse "\x7b\"content\":[\x7b\"text\":\"a\"\x7d,\x7b\x7d]\x7d").map
        (fun resp => resp.Content.toList.map ContentBlock.Text) = some ["a", ""] ∧
    (unmarshalClaudeResponse "\x7b\x7d").map
        (fun resp => resp.Content.toList.map ContentBlock.Text) = some [] ∧
    (unmarshalClaudeResponse "\x7b\"content\":null\x7d").map
        (fun resp => resp.Content.toList.map ContentBlock.Text) = some [] ∧
    (unmarshalClaudeResponse "\x7b\"content\":[\x7b\"text\":\"a\"\x7d],\"content\":null\x7d").map
        (fun resp => resp.Content.toList.map ContentBlock.Text) = some [] ∧
    (unmarshalClaudeResponse "\x7b\"content\":[\x7b\"text\":\"a\"\x7d],\"content\":[]\x7d").map
        (fun resp => resp.Content.toList.map ContentBlock.Text) = some [] ∧
    (unmarshalClaudeResponse "\x7b\"content\":[\x7b\"text\":\"a\"\x7d],\"content\":[\x7b\x7d]\x7d").map
        (fun resp => resp.Content.toList.map ContentBlock.Text) = some ["a"] ∧
    (unmarshalClaudeResponse "\x7b\"content\":[\x7b\"text\":\"a\"\x7d],\"content\":[null,\x7b\x7d]\x7d").map
        (fun resp => resp.Content.toList.map ContentBlock.Text) = some ["a", ""] ∧
    (unmarshalClaudeResponse
        "\x7b\"content\":[\x7b\"text\":\"a\"\x7d,\x7b\"text\":\"b\"\x7d],\"content\":[\x7b\x7d],\"content\":[\x7b\x7d,\x7b\x7d]\x7d").map
        (fun resp => resp.Content.toList.map ContentBlock.Text) = some ["a", "b"] ∧
    (unmarshalClaudeResponse
        "\x7b\"content\":[\x7b\"text\":\"a\"\x7d],\"content\":null,\"content\":[\x7b\x7d]\x7d").map
        (fun resp => resp.Content.toList.map ContentBlock.Text) = some [""] ∧
    (unmarshalClaudeResponse "\x7b\"content\":[\x7b\"text\":5\x7d]\x7d").map
        (fun resp => resp.Content.toList.map ContentBlock.Text) = none ∧
    (unmarshalClaudeResponse "\x7b\"content\":\"a\"\x7d").map
        (fun resp => resp.Content.toList.map ContentBlock.Text) = none ∧
    (unmarshalClaudeResponse "\x7b\"content\":[]\x7d x").map
        (fun resp => resp.Content.toList.map ContentBlock.Text) = none :=
  ⟨rfl, rfl, rfl, rfl, rfl, rfl, rfl, rfl, rfl, rfl, rfl, rfl⟩

/-- The payload for a message with a quote, a backslash, a line feed, a control
character and an angle bracket. -/
theorem marshal_escapes_example :
    marshalClaudeRequest (buildRequest "a\"b\\c\nd\x01<") = Except.ok
      "\x7b\"anthropic_version\":\"bedrock-2023-05-31\",\"messages\":[\x7b\"role\":\"user\",\"content\":[\x7b\"type\":\"text\",\"text\":\"a\\\"b\\\\c\\nd\\u0001\\u003c\"\x7d]\x7d],\"max_tokens\":1024,\"temperature\":0.7,\"top_p\":0.9\x7d" :=
  rfl

/-! ## The payload -/

/-- `json.Marshal` succeeds on the request built from any message and gives
`payloadChars`. -/
theorem marshal_buildRequest (m : String) :
    marshalClaudeRequest (buildRequest m) = Except.ok (String.mk (payloadChars m.data)) := by
  simp [marshalClaudeRequest, buildRequest, encodeFloat, encodeString, encodeArray, joinComma,
    encodeMessage, encodeContentBlock, encodeStopSequences, Slice.len, Slice.toList, encodeInt,
    payloadChars, escapeRunes, escapeRune, htmlSafe]
  rfl

theorem fuelFor_payload (m : List Char) : ∃ k, fuelFor (payloadChars m) = k + 14 := by
  refine ⟨2 * (payloadChars m).length + 2 - 14, ?_⟩
  have : 6 ≤ (payloadChars m).length := by simp [payloadChars]
  unfold fuelFor
  omega

theorem parseDocument_payload (m : String) :
    parseDocument (String.mk (payloadChars m.data)) = some (payloadValue m) := by
  obtain ⟨k, hk⟩ := fuelFor_payload m.data
  have h := parseValue_payload k m.data []
  rw [List.append_nil] at h
  simp only [parseDocument, hk, h]
  rfl

theorem parseValue_response (k : Nat) (t tail : List Char) :
    parseValue (k + 3) 0
      ('{' :: '"' :: (escapeRunes "response".data ++ '"' :: ':' ::
        '"' :: (escapeRunes t ++ '"' :: '}' :: tail)))
      = some (JValue.obj [("response", JValue.str (String.mk t))], tail) := by
  apply parseValue_obj _ _ _ _ _ (by decide)
  apply parseMembers_last
  exact parseValue_str _ _ _ _

theorem parseDocument_encodeResponse (t : String) :
    parseDocument (encodeResponse t) = some (JValue.obj [("response", JValue.str t)]) := by
  have he : (encodeResponse t).data =
      '{' :: '"' :: (escapeRunes "response".data ++ '"' :: ':' ::
        '"' :: (escapeRunes t.data ++ '"' :: '}' :: ['\n'])) := by
    simp [encodeResponse, encodeString, escapeRunes, escapeRune, htmlSafe]
  have hf : ∃ k, fuelFor (encodeResponse t).data = k + 3 := by
    refine ⟨2 * (encodeResponse t).data.length + 2 - 3, ?_⟩
    have hl : 1 ≤ (encodeResponse t).data.length := by rw [he]; simp
    unfold fuelFor
    omega
  obtain ⟨k, hk⟩ := hf
  have h := parseValue_response k t.data ['\n']
  rw [← he] at h
  simp only [parseDocument, hk, h]
  rfl

/-! ## The branches of the handler -/

theorem chatHandler_decode_error (client : Provider) (r : Request)
    (hd : decodeChatRequest r.Body = none) :
    chatHandler client r =
      { outcome := Outcome.response (httpError "Invalid request" 400), trace := [] } := by
  simp [chatHandler, hd]

theorem chatHandler_provider_error (client : Provider) (r : Request) (req : ChatRequest)
    (err : String) (hd : decodeChatRequest r.Body = some req)
    (hc : client (invokeInput (String.mk (payloadChars req.Message.data))) = Except.error err) :
    chatHandler client r =
      { outcome := Outcome.response (httpError "Bedrock API error" 500)
        trace := [Event.invoke (invokeInput (String.mk (payloadChars req.Message.data))),
          Event.log ("Bedrock API error: " ++ err)] } := by
  simp [chatHandler, hd, marshal_buildRequest, hc]

theorem chatHandler_parse_error (client : Provider) (r : Request) (req : ChatRequest)
    (out : InvokeModelOutput) (hd : decodeChatRequest r.Body = some req)
    (hc : client (invokeInput (String.mk (payloadChars req.Message.data))) = Except.ok out)
    (hu : unmarshalClaudeResponse out.Body = none) :
    chatHandler client r =
      { outcome := Outcome.response (httpError "Failed to parse Bedrock response" 500)
        trace := [Event.invoke (invokeInput (String.mk (payloadChars req.Message.data))),
          Event.unmarshal out.Body] } := by
  simp [chatHandler, hd, marshal_buildRequest, hc, hu]

theorem chatHandler_empty_content (client : Provider) (r : Request) (req : ChatRequest)
    (out : InvokeModelOutput) (resp : ClaudeResponse)
    (hd : decodeChatRequest r.Body = some req)
    (hc : client (invokeInput (String.mk (payloadChars req.Message.data))) = Except.ok out)
    (hu : unmarshalClaudeResponse out.Body = some resp)
    (he : resp.Content.toList = []) :
    chatHandler client r =
      { outcome := Outcome.panic "runtime error: index out of range [0] with length 0"
        trace := [Event.invoke (invokeInput (String.mk (payloadChars req.Message.data))),
          Event.unmarshal out.Body] } := by
  simp [chatHandler, hd, marshal_buildRequest, hc, hu, he]

theorem chatHandler_success (client : Provider) (r : Request) (req : ChatRequest)
    (out : InvokeModelOutput) (resp : ClaudeResponse) (first : ContentBlock)
    (rest : List ContentBlock)
    (hd : decodeChatRequest r.Body = some req)
    (hc : client (invokeInput (String.mk (payloadChars req.Message.data))) = Except.ok out)
    (hu : unmarshalClaudeResponse out.Body = some resp)
    (he : resp.Content.toList = first :: rest) :
    chatHandler client r =
      { outcome := Outcome.response
          { Status := 200, ContentType := "application/json", Body := encodeResponse first.Text }
        trace := [Event.invoke (invokeInput (String.mk (payloadChars req.Message.data))),
          Event.unmarshal out.Body] } := by
  simp [chatHandler, hd, marshal_buildRequest, hc, hu, he]

theorem payload_of_marshal (m payload : String)
    (hm : marshalClaudeRequest (buildRequest m) = Except.ok payload) :
    payload = String.mk (payloadChars m.data) := by
  rw [marshal_buildRequest] at hm
  exact (Except.ok.inj hm).symm

/-! ## The properties of the handler -/

/-- C1: when the body decodes to a request, the provider call for its payload
returns a reply without error, and the reply parses to a content sequence whose
first block has text `t`, the handler answers with status 200, content type
`application/json` and a body that reads as the JSON object whose only member
is `response` with value `t`; the message plays no part in it. -/
theorem chat_success_response (client : Provider) (r : Request) (req : ChatRequest)
    (payload : String) (out : InvokeModelOutput) (resp : ClaudeResponse)
    (first : ContentBlock) (rest : List ContentBlock)
    (hd : decodeChatRequest r.Body = some req)
    (hm : marshalClaudeRequest (buildRequest req.Message) = Except.ok payload)
    (hc : client (invokeInput payload) = Except.ok out)
    (hu : unmarshalClaudeResponse out.Body = some resp)
    (he : resp.Content.toList = first :: rest) :
    (chatHandler client r).outcome = Outcome.response
        { Status := 200, ContentType := "application/json", Body := encodeResponse first.Text } ∧
      parseDocument (encodeResponse first.Text)
        = some (JValue.obj [("response", JValue.str first.Text)]) := by
  rw [payload_of_marshal _ _ hm] at hc
  rw [chatHandler_success client r req out resp first rest hd hc hu he]
  exact ⟨rfl, parseDocument_encodeResponse first.Text⟩

/-- Witness of C1: a request with message `hi` and a reply with the text `hello`. -/
theorem chat_success_response_witness :
    (chatHandler (replyWith "\x7b\"content\":[\x7b\"text\":\"hello\"\x7d]\x7d")
        { Method := "POST", Body := "\x7b\"message\":\"hi\"\x7d" }).outcome = Outcome.response
        { Status := 200, ContentType := "application/json", Body := "\x7b\"response\":\"hello\"\x7d\n" } ∧
      parseDocument "\x7b\"response\":\"hello\"\x7d\n"
        = some (JValue.obj [("response", JValue.str "hello")]) :=
  chat_success_response (replyWith "\x7b\"content\":[\x7b\"text\":\"hello\"\x7d]\x7d")
    { Method := "POST", Body := "\x7b\"message\":\"hi\"\x7d" } { Message := "hi" }
    (String.mk (payloadChars "hi".data)) { Body := "\x7b\"content\":[\x7b\"text\":\"hello\"\x7d]\x7d" }
    { Content := Slice.mk [{ Text := "hello" }] [] } { Text := "hello" } []
    rfl (marshal_buildRequest "hi") rfl rfl rfl

/-- C2, as the code has it: when decoding the body into a `ChatRequest` returns
an error, the handler answers with status 400 and the message `Invalid request`
and the provider is not invoked. -/
theorem chat_decode_error_400 (client : Provider) (r : Request)
    (hd : decodeChatRequest r.Body = none) :
    (chatHandler client r).outcome = Outcome.response (httpError "Invalid request" 400) ∧
      (httpError "Invalid request" 400).Status = 400 ∧
      (chatHandler client r).invocations = [] := by
  rw [chatHandler_decode_error client r hd]
  exact ⟨rfl, rfl, rfl⟩

/-- Witness of the amended C2: a body that is not JSON. -/
theorem chat_decode_error_400_witness :
    decodeChatRequest "not json" = none ∧
    ((chatHandler (replyWith "\x7b\x7d") { Method := "POST", Body := "not json" }).outcome
        = Outcome.response (httpError "Invalid request" 400) ∧
      (httpError "Invalid request" 400).Status = 400 ∧
      (chatHandler (replyWith "\x7b\x7d") { Method := "POST", Body := "not json" }).invocations = []) :=
  ⟨rfl, chat_decode_error_400 (replyWith "\x7b\x7d") { Method := "POST", Body := "not json" } rfl⟩

/-- Counterexample to C2 as stated: the body `{}` is valid JSON without a
`message` field, and a body with text after its first JSON value is not valid
JSON; neither has the expected shape, yet for both the handler invokes the
provider once and answers with status 200. -/
theorem chat_unexpected_shape_forwarded :
    (specExpectedShape "\x7b\x7d" = false ∧
      (chatHandler (replyWith "\x7b\"content\":[\x7b\"text\":\"ok\"\x7d]\x7d")
        { Method := "POST", Body := "\x7b\x7d" }).outcome = Outcome.response
          { Status := 200, ContentType := "application/json", Body := "\x7b\"response\":\"ok\"\x7d\n" } ∧
      (chatHandler (replyWith "\x7b\"content\":[\x7b\"text\":\"ok\"\x7d]\x7d")
        { Method := "POST", Body := "\x7b\x7d" }).invocations
          = [invokeInput (String.mk (payloadChars []))]) ∧
    (specExpectedShape "\x7b\"message\":\"hi\"\x7d]" = false ∧
      parseDocument "\x7b\"message\":\"hi\"\x7d]" = none ∧
      (chatHandler (replyWith "\x7b\"content\":[\x7b\"text\":\"ok\"\x7d]\x7d")
        { Method := "POST", Body := "\x7b\"message\":\"hi\"\x7d]" }).outcome = Outcome.response
          { Status := 200, ContentType := "application/json", Body := "\x7b\"response\":\"ok\"\x7d\n" } ∧
      (chatHandler (replyWith "\x7b\"content\":[\x7b\"text\":\"ok\"\x7d]\x7d")
        { Method := "POST", Body := "\x7b\"message\":\"hi\"\x7d]" }).invocations
          = [invokeInput (String.mk (payloadChars "hi".data))]) :=
  ⟨⟨rfl, rfl, rfl⟩, ⟨rfl, rfl, rfl, rfl⟩⟩

/-- C3 at a failing input: for a decodable body and a reply that parses with an
empty `content` sequence, the handler ends in the index panic of
`resp.Content[0]` and writes no response. -/
theorem chat_empty_content_panics :
    (chatHandler (replyWith "\x7b\"content\":[]\x7d")
        { Method := "POST", Body := "\x7b\"message\":\"hi\"\x7d" }).outcome
      = Outcome.panic "runtime error: index out of range [0] with length 0" ∧
    ∀ resp : Response,
      (chatHandler (replyWith "\x7b\"content\":[]\x7d")
        { Method := "POST", Body := "\x7b\"message\":\"hi\"\x7d" }).outcome
      ≠ Outcome.response resp :=
  ⟨rfl, fun _ h => Outcome.noConfusion h⟩

/-- C4, as the code has it: when the body decodes and the call of
`client.InvokeModel` for its payload returns an error, whatever the error, the
handler answers with status 500, a plain-text content type and the body
`Bedrock API error` followed by a line feed; it has called `client.InvokeModel`
exactly once, with that payload, and has handed no reply body to
`json.Unmarshal`. -/
theorem chat_provider_error_500 (client : Provider) (r : Request) (req : ChatRequest)
    (payload err : String)
    (hd : decodeChatRequest r.Body = some req)
    (hm : marshalClaudeRequest (buildRequest req.Message) = Except.ok payload)
    (hc : client (invokeInput payload) = Except.error err) :
    (chatHandler client r).outcome = Outcome.response
        { Status := 500, ContentType := "text/plain; charset=utf-8"
          Body := "Bedrock API error\n" } ∧
      (chatHandler client r).invocations = [invokeInput payload] ∧
      (chatHandler client r).parsed = [] := by
  have hp := payload_of_marshal _ _ hm
  subst hp
  rw [chatHandler_provider_error client r req err hd hc]
  exact ⟨rfl, rfl, rfl⟩

/-- Witness of the amended C4: a provider that rejects the model identifier. -/
theorem chat_provider_error_500_witness :
    (chatHandler (failWith "ValidationException: The provided model identifier is invalid.")
        { Method := "POST", Body := "\x7b\"message\":\"hi\"\x7d" }).outcome
        = Outcome.response
          { Status := 500, ContentType := "text/plain; charset=utf-8"
            Body := "Bedrock API error\n" } ∧
      (chatHandler (failWith "ValidationException: The provided model identifier is invalid.")
        { Method := "POST", Body := "\x7b\"message\":\"hi\"\x7d" }).invocations
        = [invokeInput (String.mk (payloadChars "hi".data))] ∧
      (chatHandler (failWith "ValidationException: The provided model identifier is invalid.")
        { Method := "POST", Body := "\x7b\"message\":\"hi\"\x7d" }).parsed = [] :=
  chat_provider_error_500
    (failWith "ValidationException: The provided model identifier is invalid.")
    { Method := "POST", Body := "\x7b\"message\":\"hi\"\x7d" } { Message := "hi" }
    (String.mk (payloadChars "hi".data))
    "ValidationException: The provided model identifier is invalid."
    rfl (marshal_buildRequest "hi") rfl

/-- Counterexample to C4 as stated: for a decodable body and a failing provider
call the body of the answer is `Bedrock API error` followed by a line feed, as
`http.Error` writes it, and so is not the text `Bedrock API error`. -/
theorem chat_provider_error_body_is_a_line :
    (chatHandler (failWith "ValidationException: The provided model identifier is invalid.")
        { Method := "POST", Body := "\x7b\"message\":\"hi\"\x7d" }).outcome
        = Outcome.response
          { Status := 500, ContentType := "text/plain; charset=utf-8"
            Body := "Bedrock API error\n" } ∧
    ∀ (status : Nat) (contentType : String),
      (chatHandler (failWith "ValidationException: The provided model identifier is invalid.")
        { Method := "POST", Body := "\x7b\"message\":\"hi\"\x7d" }).outcome
        ≠ Outcome.response
          { Status := status, ContentType := contentType, Body := "Bedrock API error" } := by
  refine ⟨rfl, ?_⟩
  intro status contentType h
  have hb : "Bedrock API error\n" = "Bedrock API error" :=
    congrArg Response.Body (Outcome.response.inj h)
  exact absurd hb (by decide)

/-- C5, as the code has it: when the body decodes, the provider call returns a
reply without error and `json.Unmarshal` of the reply body into a
`ClaudeResponse` returns an error, the handler answers with status 500, a
plain-text content type and the body `Failed to parse Bedrock response`
followed by a line feed. -/
theorem chat_reply_parse_error_500 (client : Provider) (r : Request) (req : ChatRequest)
    (payload : String) (out : InvokeModelOutput)
    (hd : decodeChatRequest r.Body = some req)
    (hm : marshalClaudeRequest (buildRequest req.Message) = Except.ok payload)
    (hc : client (invokeInput payload) = Except.ok out)
    (hu : unmarshalClaudeResponse out.Body = none) :
    (chatHandler client r).outcome = Outcome.response
        { Status := 500, ContentType := "text/plain; charset=utf-8"
          Body := "Failed to parse Bedrock response\n" } := by
  have hp := payload_of_marshal _ _ hm
  subst hp
  rw [chatHandler_parse_error client r req out hd hc hu]
  rfl

/-- Witness of the amended C5: a reply that is not JSON. -/
theorem chat_reply_parse_error_500_witness :
    unmarshalClaudeResponse "<html>Bad Gateway</html>" = none ∧
    (chatHandler (replyWith "<html>Bad Gateway</html>")
        { Method := "POST", Body := "\x7b\"message\":\"hi\"\x7d" }).outcome
        = Outcome.response
          { Status := 500, ContentType := "text/plain; charset=utf-8"
            Body := "Failed to parse Bedrock response\n" } :=
  ⟨rfl, chat_reply_parse_error_500 (replyWith "<html>Bad Gateway</html>")
    { Method := "POST", Body := "\x7b\"message\":\"hi\"\x7d" } { Message := "hi" }
    (String.mk (payloadChars "hi".data)) { Body := "<html>Bad Gateway</html>" }
    rfl (marshal_buildRequest "hi") rfl rfl⟩

/-- Counterexample to C5 as stated: a reply whose content block has no `text`
is valid JSON that lacks the expected shape, yet `json.Unmarshal` accepts it
and the handler answers with status 200 and the empty text; a reply without
`content` lacks the shape too and gets no answer with status 500 either. -/
theorem chat_reply_shape_not_checked :
    (specExpectedReplyShape "\x7b\"content\":[\x7b\"type\":\"text\"\x7d]\x7d" = false ∧
      (chatHandler (replyWith "\x7b\"content\":[\x7b\"type\":\"text\"\x7d]\x7d")
        { Method := "POST", Body := "\x7b\"message\":\"hi\"\x7d" }).outcome = Outcome.response
          { Status := 200, ContentType := "application/json", Body := "\x7b\"response\":\"\"\x7d\n" }) ∧
    (specExpectedReplyShape "\x7b\"error\":\"overloaded\"\x7d" = false ∧
      ∀ (contentType body : String),
        (chatHandler (replyWith "\x7b\"error\":\"overloaded\"\x7d")
          { Method := "POST", Body := "\x7b\"message\":\"hi\"\x7d" }).outcome
          ≠ Outcome.response { Status := 500, ContentType := contentType, Body := body }) :=
  ⟨⟨rfl, rfl⟩, ⟨rfl, fun _ _ h => Outcome.noConfusion h⟩⟩

/-- C6: the request built from a message `m` has the protocol version
`bedrock-2023-05-31`, one turn with role `user` and one content block of type
`text` and text `m`, 1024 as token bound, temperature 0.7, top-p 0.9 and no stop
sequences; the request built from another message differs in that text only. -/
theorem buildRequest_template (m : String) :
    (buildRequest m).AnthropicVersion = "bedrock-2023-05-31" ∧
      (buildRequest m).Messages
        = [{ Role := "user", Content := [{ Type_ := "text", Text := m }] }] ∧
      (buildRequest m).MaxTokens = 1024 ∧
      (buildRequest m).Temperature = Float64.finite "0.7" ∧
      (buildRequest m).TopP = Float64.finite "0.9" ∧
      (buildRequest m).StopSequences.len = 0 ∧
      ∀ m1 : String, buildRequest m1 =
        { buildRequest m with
          Messages := [{ Role := "user", Content := [{ Type_ := "text", Text := m1 }] }] } :=
  ⟨rfl, rfl, rfl, rfl, rfl, rfl, fun _ => rfl⟩

/-- C7: for every message `m`, `json.Marshal` of the request built from `m`
gives a text that is one valid JSON object with exactly the members
`anthropic_version`, `messages`, `max_tokens`, `temperature` and `top_p`, in
which `messages` holds one turn with role `user` and one content block of type
`text` whose text reads back as `m`. -/
theorem payload_reads_back (m : String) :
    ∃ payload : String,
      marshalClaudeRequest (buildRequest m) = Except.ok payload ∧
      parseDocument payload = some (JValue.obj [
        ("anthropic_version", JValue.str "bedrock-2023-05-31"),
        ("messages", JValue.arr [JValue.obj [
          ("role", JValue.str "user"),
          ("content", JValue.arr [JValue.obj [
            ("type", JValue.str "text"),
            ("text", JValue.str m)]])]]),
        ("max_tokens", JValue.num "1024"),
        ("temperature", JValue.num "0.7"),
        ("top_p", JValue.num "0.9")]) :=
  ⟨String.mk (payloadChars m.data), marshal_buildRequest m, parseDocument_payload m⟩

/-- C8: `main` listens on `:8080` when `PORT` is unset or empty, and on `:`
followed by the value of `PORT` when that value is not empty. -/
theorem port_selection (p : String) (hp : p ≠ "") :
    listenAddr none = ":8080" ∧ listenAddr (some "") = ":8080" ∧
      listenAddr (some p) = ":" ++ p := by
  refine ⟨rfl, rfl, ?_⟩
  simp [listenAddr, selectPort, getenvPort, hp]

/-- Witness of C8: `PORT=9090`. -/
theorem port_selection_witness :
    "9090" ≠ "" ∧ (listenAddr none = ":8080" ∧ listenAddr (some "") = ":8080" ∧
      listenAddr (some "9090") = ":" ++ "9090") :=
  ⟨by decide, port_selection "9090" (by decide)⟩

/-- C9: `json.Marshal` of the request built from any message succeeds, so no run
of the handler answers with `Failed to marshal request`. -/
theorem marshal_error_unreachable :
    (∀ m : String, ∃ payload, marshalClaudeRequest (buildRequest m) = Except.ok payload) ∧
      ∀ (client : Provider) (r : Request),
        (chatHandler client r).outcome
          ≠ Outcome.response (httpError "Failed to marshal request" 500) := by
  refine ⟨fun m => ⟨_, marshal_buildRequest m⟩, ?_⟩
  intro client r
  have h1 : Outcome.response (httpError "Invalid request" 400)
      ≠ Outcome.response (httpError "Failed to marshal request" 500) := by decide
  have h2 : Outcome.response (httpError "Bedrock API error" 500)
      ≠ Outcome.response (httpError "Failed to marshal request" 500) := by decide
  have h3 : Outcome.response (httpError "Failed to parse Bedrock response" 500)
      ≠ Outcome.response (httpError "Failed to marshal request" 500) := by decide
  unfold chatHandler
  split
  · exact h1
  · rw [marshal_buildRequest]
    dsimp only
    split
    · exact h2
    · split
      · exact h3
      · split
        · simp
        · simp [httpError]

/-- C10: two requests with the same body get the same run of the handler
whatever their methods are, and when that body decodes the provider is invoked
once with the payload built from it. -/
theorem chat_ignores_method (client : Provider) (r1 r2 : Request)
    (h : r1.Body = r2.Body) :
    chatHandler client r1 = chatHandler client r2 ∧
      ∀ req, decodeChatRequest r1.Body = some req →
        (chatHandler client r2).invocations
          = [invokeInput (String.mk (payloadChars req.Message.data))] := by
  have heq : chatHandler client r1 = chatHandler client r2 := by
    unfold chatHandler
    rw [h]
  refine ⟨heq, ?_⟩
  intro req hd
  rw [← heq]
  unfold chatHandler
  rw [hd]
  dsimp only
  rw [marshal_buildRequest]
  dsimp only
  split
  · rfl
  · split
    · rfl
    · split <;> rfl

/-- Witness of C10: a GET and a POST with the same body. -/
theorem chat_ignores_method_witness :
    chatHandler (replyWith "\x7b\"content\":[\x7b\"text\":\"ok\"\x7d]\x7d")
        { Method := "GET", Body := "\x7b\"message\":\"hi\"\x7d" }
      = chatHandler (replyWith "\x7b\"content\":[\x7b\"text\":\"ok\"\x7d]\x7d")
        { Method := "POST", Body := "\x7b\"message\":\"hi\"\x7d" } ∧
      ∀ req, decodeChatRequest "\x7b\"message\":\"hi\"\x7d" = some req →
        (chatHandler (replyWith "\x7b\"content\":[\x7b\"text\":\"ok\"\x7d]\x7d")
          { Method := "POST", Body := "\x7b\"message\":\"hi\"\x7d" }).invocations
          = [invokeInput (String.mk (payloadChars req.Message.data))] :=
  chat_ignores_method (replyWith "\x7b\"content\":[\x7b\"text\":\"ok\"\x7d]\x7d")
    { Method := "GET", Body := "\x7b\"message\":\"hi\"\x7d" }
    { Method := "POST", Body := "\x7b\"message\":\"hi\"\x7d" } rfl

end BedrockChat
